import Mathlib

/-!
Verification development for the riverplan repository.

The interactive driver code is embedded from `src/main.go` (single-start
iterative sweep) and the multi-start revision embedded in `src/README.md`
(generation ids, `runPathCalculationWorker`).  The `game` package itself
(grid model, path search engine, profit evaluator) is not part of the
source tree, so those components are modelled from the specification.

Conventions: Go `float64` profit arithmetic is modelled with exact
rationals; Go slices with `List`; the 21x12 tile matrix with a function
from coordinates to tile types; goroutine interleavings with explicit
event sequences processed by step functions.
-/

namespace Riverplan

/-- Tile kinds of one grid cell, from the spec data model: exactly one
value per cell. -/
inductive TileType where
  | Empty
  | Road
  | River
  | Forest
  | Forbidden
deriving DecidableEq, Repr

/-- Integer pair (column X, row Y), 0-based. -/
structure Coordinate where
  X : Int
  Y : Int
deriving DecidableEq, Repr

/-- Grid width constant (21 columns). -/
def GridWidth : Int := 21

/-- Grid height constant (12 rows). -/
def GridHeight : Int := 12

/-- The tile matrix, modelled as a total function on coordinates;
out-of-range coordinates are never read by the model because neighbour
lists are bounds-filtered. -/
def Grid : Type := Coordinate → TileType

/-- Modelled from the spec: `isValidCoordinate(c)`: bounds check. -/
def isValidCoordinate (c : Coordinate) : Bool :=
  decide (0 ≤ c.X) && decide (c.X < GridWidth) && decide (0 ≤ c.Y) && decide (c.Y < GridHeight)

/-- The four orthogonal neighbour candidates of a cell, bounds-filtered. -/
def neighbors (c : Coordinate) : List Coordinate :=
  [⟨c.X + 1, c.Y⟩, ⟨c.X - 1, c.Y⟩, ⟨c.X, c.Y + 1⟩, ⟨c.X, c.Y - 1⟩].filter isValidCoordinate

/-- Orthogonal adjacency: Manhattan distance exactly 1. -/
def isAdjacent (a b : Coordinate) : Bool :=
  decide ((a.X - b.X).natAbs + (a.Y - b.Y).natAbs = 1)

/-- Every coordinate of the 21x12 grid, row by row. -/
def allCoords : List Coordinate :=
  (List.range 12).flatMap fun y => (List.range 21).map fun x => ⟨Int.ofNat x, Int.ofNat y⟩

/-- Modelled from the spec: `NewGrid()` returns an all-Empty grid. -/
def NewGrid : Grid := fun _ => TileType.Empty

/-- Functional single-cell update of a grid. -/
def setTile (g : Grid) (c : Coordinate) (t : TileType) : Grid :=
  fun d => if d = c then t else g d

/-- Read one cell. -/
def tileAt (g : Grid) (c : Coordinate) : TileType := g c

/-- Number of orthogonally adjacent River tiles of a cell. -/
def riverNeighborCount (g : Grid) (c : Coordinate) : Nat :=
  (neighbors c).countP fun d => g d = TileType.River

/-- The per-adjacency forest bonus, 0.02 in the sources. -/
def forestTileBonus : ℚ := 2 / 100

/-- Contribution of one Forest tile with `k` adjacent River tiles:
`0.02 × 2 × k`. -/
def forestContribution (k : Nat) : ℚ := forestTileBonus * 2 * (k : ℚ)

/-- Modelled from the spec: one step of the ProfitEvaluator (the `game`
package is not in the source tree).  A cell that is still Empty becomes
Forest and contributes `0.02 × 2 × k`, `k` being its count of adjacent
River tiles in the grid accumulated so far (rivers are already fully
marked, so the count never changes later); any other cell is skipped. -/
def forestPlaceStep (acc : Grid × ℚ) (c : Coordinate) : Grid × ℚ :=
  if tileAt acc.1 c = TileType.Empty then
    (setTile acc.1 c TileType.Forest, acc.2 + forestContribution (riverNeighborCount acc.1 c))
  else acc

/-- Modelled from the spec: total profit and forest placement — the fold
of `forestPlaceStep` over the four orthogonal neighbours of every path
tile in order. -/
def calculateProfitAndForests (g : Grid) (path : List Coordinate) : Grid × ℚ :=
  path.foldl (fun acc t => (neighbors t).foldl forestPlaceStep acc) (g, 0)

/-- Modelled from the spec: recomputation of profit from a grid snapshot,
exactly as the spec words it: the sum over all Forest tiles of
`0.02 × 2 × k`, `k` being that tile's count of orthogonally adjacent
River tiles. -/
def recomputeProfitFromGrid (g : Grid) : ℚ :=
  (allCoords.map fun c =>
    if tileAt g c = TileType.Forest then forestContribution (riverNeighborCount g c) else 0).sum

/-- A candidate or final result: the river path in placement order, its
profit (−1 sentinel means "no solution yet") and a grid snapshot with
River and Forest tiles baked in. -/
structure RiverPathSolution where
  Path : List Coordinate
  Profit : ℚ
  Grid : Grid

/-- The "no solution yet" value: profit −1, no path, a given base grid. -/
def sentinelSolution (g : Grid) : RiverPathSolution :=
  { Path := [], Profit := -1, Grid := g }

/-- Border cells: outer ring of the grid. -/
def isBorder (c : Coordinate) : Bool :=
  decide (c.X = 0) || decide (c.X = GridWidth - 1) || decide (c.Y = 0) || decide (c.Y = GridHeight - 1)

/-- Modelled from the spec: the optional cross-river-adjacency exclusion —
a candidate tile is accepted only if no orthogonal neighbour other than
the current tile is already a placed River tile. -/
def crossAdjacencyOk (g : Grid) (cur t : Coordinate) : Bool :=
  (neighbors t).all fun n => decide (n = cur ∨ g n ≠ TileType.River)

/-- Modelled from the spec: legality of one candidate next tile — it must
be Empty, must not be the tile two positions back (no immediate U-turn),
and must pass the optional cross-adjacency exclusion. -/
def candidateOk (dc : Bool) (g : Grid) (cur : Coordinate) (prev? : Option Coordinate)
    (t : Coordinate) : Bool :=
  decide (g t = TileType.Empty) &&
  (match prev? with
   | some b => decide (t ≠ b)
   | none => true) &&
  (if dc then crossAdjacencyOk g cur t else true)

/-- Legal candidate neighbours of the current tile. -/
def candidateNeighbors (dc : Bool) (g : Grid) (cur : Coordinate) (prev? : Option Coordinate) :
    List Coordinate :=
  (neighbors cur).filter (candidateOk dc g cur prev?)

/-- Modelled from the spec: border continuations are discarded whenever
any interior continuation is legal (a hard prune, not a tie-break). -/
def borderPrune (l : List Coordinate) : List Coordinate :=
  let interior := l.filter fun t => !(isBorder t)
  if interior.isEmpty then l else interior

/-- Modelled from the spec: heuristic component (a) — for every Empty
neighbour of the candidate (a future forest spot), how many already
placed river tiles it would sit next to, summed. -/
def adjacencyBonus (g : Grid) (t : Coordinate) : Nat :=
  ((neighbors t).filter fun f => decide (g f = TileType.Empty)).foldl
    (fun acc f => acc + riverNeighborCount g f) 0

/-- Modelled from the spec: heuristic component (b) — number of Empty
neighbours of the candidate. -/
def newForestCount (g : Grid) (t : Coordinate) : Nat :=
  (neighbors t).countP fun f => g f = TileType.Empty

/-- Modelled from the spec: heuristic component (c) — a candidate that
changes direction relative to the previous step scores 1, continuing
straight scores 0. -/
def turnScore (cur : Coordinate) (prev? : Option Coordinate) (t : Coordinate) : Nat :=
  match prev? with
  | none => 0
  | some b => if t.X - cur.X = cur.X - b.X ∧ t.Y - cur.Y = cur.Y - b.Y then 0 else 1

/-- Composite heuristic sort key of a candidate. -/
def candKey (g : Grid) (cur : Coordinate) (prev? : Option Coordinate) (t : Coordinate) :
    Nat × Nat × Nat :=
  (adjacencyBonus g t, newForestCount g t, turnScore cur prev? t)

/-- Lexicographic "greater or equal" on sort keys. -/
def keyGE (a b : Nat × Nat × Nat) : Bool :=
  decide (b.1 < a.1) ||
    (decide (a.1 = b.1) &&
      (decide (b.2.1 < a.2.1) || (decide (a.2.1 = b.2.1) && decide (b.2.2 ≤ a.2.2))))

/-- Stable descending insertion: `a` is placed before the first element
whose key is not below `a`'s predecessors; ties keep earlier elements
first. -/
def insertDesc (k : Coordinate → Nat × Nat × Nat) (a : Coordinate) :
    List Coordinate → List Coordinate
  | [] => [a]
  | b :: bs => if keyGE (k a) (k b) then a :: b :: bs else b :: insertDesc k a bs

/-- Stable insertion sort, descending by key. -/
def sortDescBy (k : Coordinate → Nat × Nat × Nat) : List Coordinate → List Coordinate
  | [] => []
  | a :: rest => insertDesc k a (sortDescBy k rest)

/-- Modelled from the spec: the surviving candidates after pruning,
sorted descending by the composite heuristic key. -/
def sortedCandidates (dc : Bool) (g : Grid) (cur : Coordinate) (prev? : Option Coordinate) :
    List Coordinate :=
  sortDescBy (candKey g cur prev?) (borderPrune (candidateNeighbors dc g cur prev?))

/-- Modelled from the spec: leaf handling — evaluate the accumulated path
(the internal list is kept reversed, current tile first); when profit
beats the best known, replace it and invoke the improvement callback
(recorded in the log) with the new solution. -/
def leafEvaluate (g : Grid) (revPath : List Coordinate)
    (acc : RiverPathSolution × List RiverPathSolution) :
    RiverPathSolution × List RiverPathSolution :=
  let r := calculateProfitAndForests g revPath.reverse
  if acc.1.Profit < r.2 then
    let s : RiverPathSolution := { Path := revPath.reverse, Profit := r.2, Grid := r.1 }
    (s, acc.2 ++ [s])
  else acc

/-- Modelled from the spec: the recursive backtracking search
(`exploreAndEvaluateRecursive` of the missing `game` package).  The grid
carries the path already marked River; `revPath` is the accumulated path,
current tile first; the Nat argument is the number of extensions still
allowed.  A branch becomes a leaf when the depth budget is exhausted or
no legal candidate remains. -/
def exploreAndEvaluateRecursive (dc : Bool) :
    Nat → Grid → List Coordinate → RiverPathSolution × List RiverPathSolution →
      RiverPathSolution × List RiverPathSolution
  | _, _, [], acc => acc
  | 0, g, cur :: rest, acc => leafEvaluate g (cur :: rest) acc
  | r + 1, g, cur :: rest, acc =>
      let cands := sortedCandidates dc g cur rest.head?
      if cands.isEmpty then leafEvaluate g (cur :: rest) acc
      else
        cands.foldl
          (fun a t =>
            exploreAndEvaluateRecursive dc r (setTile g t TileType.River) (t :: cur :: rest) a)
          acc

/-- Failure statuses of one search invocation. -/
inductive SearchError where
  | invalidStart
  | stoppedByUser
  | otherError
deriving DecidableEq, Repr

/-- Modelled from the spec: the PathSearchEngine entry point — the start
must be Empty (else `invalidStart`); the search explores simple extensions
up to the requested maximum length and returns the best solution together
with the log of improvement-callback deliveries. -/
def FindOptimalRiverAndForests (g : Grid) (start : Coordinate) (maxLength : Nat) (dc : Bool) :
    Except SearchError (RiverPathSolution × List RiverPathSolution) :=
  if g start = TileType.Empty then
    Except.ok
      (exploreAndEvaluateRecursive dc (maxLength - 1) (setTile g start TileType.River) [start]
        (sentinelSolution g, []))
  else Except.error SearchError.invalidStart

/-- Constant `minRiverLength` from main.go. -/
def minRiverLength : Int := 5

/-- Constant `maxRiverLengthCap` from main.go (35). -/
def maxRiverLengthCap : Int := 35

/-- Constant `defaultInitialRiverLength` from main.go (35). -/
def defaultInitialRiverLength : Int := 35

/-- PageUp handling from `Update` in main.go: increment only while below
the cap. -/
def pageUpRiverLength (v : Int) : Int :=
  if v < maxRiverLengthCap then v + 1 else v

/-- PageDown handling from `Update` in main.go: decrement only while
above the minimum. -/
def pageDownRiverLength (v : Int) : Int :=
  if minRiverLength < v then v - 1 else v

/-- Scrollbar handling from `Update` in main.go (both the track click and
the drag path): the raw value computed from the thumb position is clamped
into `[minRiverLength, maxRiverLengthCap]`. -/
def clampRiverLength (newValue : Int) : Int :=
  let v1 := if newValue < minRiverLength then minRiverLength else newValue
  if maxRiverLengthCap < v1 then maxRiverLengthCap else v1

/-- The lengths the iterative goroutine of main.go tests: 5 up to the
user-selected target, in order (empty when the target is below 5). -/
def sweepLengths (target : Nat) : List Nat :=
  List.range' 5 (target + 1 - 5)

/-- The two solution holders the iterative goroutine of main.go mutates
through its progress callback. -/
structure DriverState where
  intermediateBestSolution : RiverPathSolution
  overallBestSolution : RiverPathSolution

/-- `progressCb` from main.go (both the initial-calculation and the
recalculation goroutines): the per-length intermediate best is replaced
when the candidate's profit is higher or the held path is nil; the
overall best is replaced only on strictly higher profit. -/
def progressCb (st : DriverState) (cand : RiverPathSolution) : DriverState :=
  { intermediateBestSolution :=
      if st.intermediateBestSolution.Profit < cand.Profit ∨ st.intermediateBestSolution.Path = []
      then cand else st.intermediateBestSolution,
    overallBestSolution :=
      if st.overallBestSolution.Profit < cand.Profit then cand else st.overallBestSolution }

/-- What one per-length engine invocation feeds back to the driver: the
sequence of improvement-callback deliveries and the returned error, if
any. -/
structure LengthOutcome where
  callbacks : List RiverPathSolution
  err : Option SearchError

/-- The length loop of the iterative goroutine in main.go: before each
length the stop channel is polled; the per-length intermediate best is
reset to the sentinel over the calculation grid; the engine runs (its
callbacks are folded through `progressCb`); a "search stopped by user"
error leaves the loop, any other error is only logged.  Returns the final
driver state and, per engine invocation, the tested length paired with
the intermediate-best value in force when the invocation started. -/
def runSweep (outcome : Nat → LengthOutcome) (stopBefore : Nat → Bool) (calcGrid : Grid) :
    List Nat → DriverState → DriverState × List (Nat × RiverPathSolution)
  | [], st => (st, [])
  | l :: ls, st =>
      if stopBefore l then (st, [])
      else
        let st1 : DriverState := { st with intermediateBestSolution := sentinelSolution calcGrid }
        let st2 := (outcome l).callbacks.foldl progressCb st1
        if (outcome l).err = some SearchError.stoppedByUser then
          (st2, [(l, st1.intermediateBestSolution)])
        else
          let res := runSweep outcome stopBefore calcGrid ls st2
          (res.1, (l, st1.intermediateBestSolution) :: res.2)

/-- Interaction states of the application. -/
inductive GState where
  | placingRoad
  | placingRiverSource
  | calculating
  | showingResult
deriving DecidableEq, Repr

/-- The Game fields touched by the end-of-sweep block of the iterative
goroutine in main.go. -/
structure GameUIState where
  grid : Grid
  finalBestSolution : RiverPathSolution
  intermediateBestSolution : RiverPathSolution
  gameState : GState
  maxLenUsedForFinalSolution : Nat
  isIterativeCalculationActive : Bool

/-- The `endOfCalculation` block of the iterative goroutine in main.go:
when this goroutine's stop channel is still the Game's current one, the
final solution becomes the overall best (falling back to the road layout
grid and nil path when its profit is negative), the result state is
entered, and the main display grid is overwritten only when the sweep was
not force-stopped by the user. -/
def finalizeSweep (chanMatches userForcedStop : Bool) (roadLayoutGrid : Grid)
    (overallBest : RiverPathSolution) (gs : GameUIState) : GameUIState :=
  let gs0 := { gs with isIterativeCalculationActive := false }
  if chanMatches then
    let final1 :=
      if overallBest.Profit < 0 then { overallBest with Grid := roadLayoutGrid, Path := [] }
      else overallBest
    { gs0 with
        gameState := GState.showingResult,
        finalBestSolution := final1,
        maxLenUsedForFinalSolution := final1.Path.length,
        grid := if userForcedStop then gs.grid else final1.Grid,
        intermediateBestSolution := final1 }
  else gs0

/-- The shared best-solution holder update, as performed under the mutex
at every publication site (progressCb's overall best in main.go, the
worker's global publish in the README revision) and as the spec's
`Offer`: replace exactly on strictly greater profit, report whether an
improvement happened. -/
def Offer (current candidate : RiverPathSolution) : RiverPathSolution × Bool :=
  if current.Profit < candidate.Profit then (candidate, true) else (current, false)

/-- A serialized sequence of Offer calls (the mutex serializes concurrent
callers). -/
def foldOffers (init : RiverPathSolution) (cands : List RiverPathSolution) : RiverPathSolution :=
  cands.foldl (fun cur cand => (Offer cur cand).1) init

/-- The generation-id state of the multi-start revision embedded in
src/README.md: the launch counter, the currently valid generation, the
shared best solution, the live display grid and whether the current stop
channel has been closed. -/
structure CalcSystem where
  calculationID : Nat
  currentCalculationID : Nat
  absoluteBestOverallSolution : RiverPathSolution
  grid : Grid
  stopChannelClosed : Bool

/-- The shared-state transitions of the README revision that touch the
generation machinery. -/
inductive CalcEvent where
  | launchSweep (roadLayout : Grid)
  | resetFull
  | workerPublish (workerCalcID : Nat) (workerBest : RiverPathSolution)

/-- One shared-state transition, from the README revision of main.go:
a launch increments `calculationID` and makes it current, re-arms the
stop channel and clears the shared best; `resetButtonAction("Full")`
closes the stop channel and clears the shared best and display grid but
leaves both generation counters untouched; a worker publication
(`runPathCalculationWorker` after one length test) is dropped unless the
worker's generation equals the current one, and otherwise installs a
strictly more profitable worker best, mirroring it into the display grid
when it is a real solution. -/
def calcStep (s : CalcSystem) (e : CalcEvent) : CalcSystem :=
  match e with
  | CalcEvent.launchSweep road =>
      { s with
          calculationID := s.calculationID + 1,
          currentCalculationID := s.calculationID + 1,
          absoluteBestOverallSolution := sentinelSolution road,
          stopChannelClosed := false }
  | CalcEvent.resetFull =>
      { s with
          stopChannelClosed := true,
          absoluteBestOverallSolution := sentinelSolution NewGrid,
          grid := NewGrid }
  | CalcEvent.workerPublish wid wbest =>
      if wid = s.currentCalculationID then
        if s.absoluteBestOverallSolution.Profit < wbest.Profit then
          { s with
              absoluteBestOverallSolution := wbest,
              grid := if 0 ≤ wbest.Profit ∧ wbest.Path ≠ [] then wbest.Grid else s.grid }
        else s
      else s

/-- The state right after `NewGame()` in the README revision: both
generation counters 0, sentinel best over the empty grid. -/
def initialCalcSystem : CalcSystem :=
  { calculationID := 0, currentCalculationID := 0,
    absoluteBestOverallSolution := sentinelSolution NewGrid,
    grid := NewGrid, stopChannelClosed := false }

/-- Run a sequence of shared-state transitions from the initial state. -/
def calcRun (events : List CalcEvent) : CalcSystem :=
  events.foldl calcStep initialCalcSystem

/-- The candidates handed to `progressCb` over one whole sweep, in order:
per tested length the engine's callback deliveries, cut off after a
length that reported "search stopped by user" and before a length whose
pre-check saw the stop channel closed. -/
def sweepCallbacks (outcome : Nat → LengthOutcome) (stopBefore : Nat → Bool) :
    List Nat → List RiverPathSolution
  | [] => []
  | l :: ls =>
      if stopBefore l then []
      else if (outcome l).err = some SearchError.stoppedByUser then (outcome l).callbacks
      else (outcome l).callbacks ++ sweepCallbacks outcome stopBefore ls

/-- Replace every per-length error other than "search stopped by user"
with no error at all, leaving callbacks untouched: the driver only logs
such errors, so running the sweep on this transform must not change
anything. -/
def eraseOtherErrors (outcome : Nat → LengthOutcome) : Nat → LengthOutcome :=
  fun l =>
    { callbacks := (outcome l).callbacks,
      err := if (outcome l).err = some SearchError.stoppedByUser then (outcome l).err else none }

/-- The driver state set up when a sweep is launched in main.go: both
solution holders start as the sentinel over the road layout. -/
def launchDriverState (roadLayoutGrid : Grid) : DriverState :=
  { intermediateBestSolution := sentinelSolution roadLayoutGrid,
    overallBestSolution := sentinelSolution roadLayoutGrid }

/-- The whole single-start pipeline of the iterative goroutine: run the
length loop from the launch state, then run the `endOfCalculation`
block on the resulting overall best. -/
def sweepFinal (outcome : Nat → LengthOutcome) (stopBefore : Nat → Bool)
    (roadLayoutGrid : Grid) (lengths : List Nat) (userForcedStop : Bool)
    (gs : GameUIState) : GameUIState :=
  finalizeSweep true userForcedStop roadLayoutGrid
    (runSweep outcome stopBefore roadLayoutGrid lengths (launchDriverState roadLayoutGrid)).1.overallBestSolution
    gs

/-- A concrete solution used in concrete instantiations. -/
def exSolutionA : RiverPathSolution :=
  { Path := [⟨1, 1⟩], Profit := 1, Grid := NewGrid }

/-- A second concrete solution used in concrete instantiations. -/
def exSolutionB : RiverPathSolution :=
  { Path := [⟨2, 1⟩], Profit := 2, Grid := NewGrid }

/-- A concrete UI state used in concrete instantiations. -/
def exUIState : GameUIState :=
  { grid := NewGrid, finalBestSolution := sentinelSolution NewGrid,
    intermediateBestSolution := sentinelSolution NewGrid,
    gameState := GState.calculating, maxLenUsedForFinalSolution := 0,
    isIterativeCalculationActive := true }

/-- A concrete per-length outcome function: an error of the non-stop kind
at length 6, clean results elsewhere, no callbacks. -/
def exOutcome : Nat → LengthOutcome :=
  fun l => if l = 6 then { callbacks := [], err := some SearchError.otherError }
           else { callbacks := [], err := none }

/-- The event trace refuting the reset half of the generation-id claim:
a sweep is launched (generation 1), the user resets everything, and a
worker of generation 1 that outlived the reset publishes its result. -/
def staleResetTrace : List CalcEvent :=
  [CalcEvent.launchSweep NewGrid, CalcEvent.resetFull,
   CalcEvent.workerPublish 1 exSolutionA]

/-- No immediate U-turn along a path, by indices: the tile at position
i + 2 never equals the tile at position i. -/
def pathNoUturn (p : List Coordinate) : Prop :=
  ∀ i, (h : i + 2 < p.length) → p.get ⟨i + 2, h⟩ ≠ p.get ⟨i, by omega⟩

/-- The path-shape contract of one solution for maximum length `L`:
the path has at most `L` tiles, consecutive tiles are orthogonally
adjacent (Manhattan distance 1), and there is no immediate U-turn. -/
def solutionPathOk (L : Nat) (s : RiverPathSolution) : Prop :=
  s.Path.length ≤ L
  ∧ List.Chain' (fun a b => isAdjacent a b = true) s.Path
  ∧ pathNoUturn s.Path

/-- A concrete engine run: depth budget exhausted immediately, so the
single leaf is the start tile itself. -/
def exSearchOut : RiverPathSolution × List RiverPathSolution :=
  exploreAndEvaluateRecursive false 0 (setTile NewGrid ⟨0, 5⟩ TileType.River) [⟨0, 5⟩]
    (sentinelSolution NewGrid, [])

/-! ## Helper lemmas -/

theorem Offer_fst_profit (cur cand : RiverPathSolution) :
    ((Offer cur cand).1).Profit = max cur.Profit cand.Profit := by
  unfold Offer
  split
  · next h => exact (max_eq_right h.le).symm
  · next h => exact (max_eq_left (not_lt.mp h)).symm

theorem foldOffers_nil (init : RiverPathSolution) : foldOffers init [] = init := rfl

theorem foldOffers_cons (init c : RiverPathSolution) (cs : List RiverPathSolution) :
    foldOffers init (c :: cs) = foldOffers (Offer init c).1 cs := rfl

theorem foldOffers_append (init : RiverPathSolution) (a b : List RiverPathSolution) :
    foldOffers init (a ++ b) = foldOffers (foldOffers init a) b := by
  unfold foldOffers
  exact List.foldl_append ..

theorem foldOffers_profit (cands : List RiverPathSolution) :
    ∀ init : RiverPathSolution,
      (foldOffers init cands).Profit
        = (cands.map RiverPathSolution.Profit).foldl max init.Profit := by
  induction cands with
  | nil => intro init; rfl
  | cons c cs ih =>
      intro init
      rw [foldOffers_cons, ih, List.map_cons, List.foldl_cons, Offer_fst_profit]

theorem foldOffers_unchanged (cands : List RiverPathSolution) :
    ∀ init : RiverPathSolution, (∀ c ∈ cands, c.Profit ≤ init.Profit) →
      foldOffers init cands = init := by
  induction cands with
  | nil => intro init _; rfl
  | cons c cs ih =>
      intro init h
      rw [foldOffers_cons]
      have hc : ¬ init.Profit < c.Profit := not_lt.mpr (h c (List.mem_cons_self c cs))
      have : (Offer init c).1 = init := by unfold Offer; rw [if_neg hc]
      rw [this]
      exact ih init fun d hd => h d (List.mem_cons_of_mem c hd)

theorem foldOffers_init_or_mem (cands : List RiverPathSolution) :
    ∀ init : RiverPathSolution,
      foldOffers init cands = init ∨ foldOffers init cands ∈ cands := by
  induction cands with
  | nil => intro init; exact Or.inl rfl
  | cons c cs ih =>
      intro init
      rw [foldOffers_cons]
      unfold Offer
      split
      · rcases ih c with h | h
        · exact Or.inr (by rw [h]; exact List.mem_cons_self c cs)
        · exact Or.inr (List.mem_cons_of_mem c h)
      · rcases ih init with h | h
        · exact Or.inl h
        · exact Or.inr (List.mem_cons_of_mem c h)

theorem progressCb_overall (st : DriverState) (cand : RiverPathSolution) :
    (progressCb st cand).overallBestSolution = (Offer st.overallBestSolution cand).1 := by
  unfold progressCb Offer
  by_cases h : st.overallBestSolution.Profit < cand.Profit <;> simp [h]

theorem foldl_progressCb_overall (cands : List RiverPathSolution) :
    ∀ st : DriverState,
      (cands.foldl progressCb st).overallBestSolution
        = foldOffers st.overallBestSolution cands := by
  induction cands with
  | nil => intro st; rfl
  | cons c cs ih =>
      intro st
      rw [List.foldl_cons, ih, foldOffers_cons, progressCb_overall]

theorem runSweep_overall (outcome : Nat → LengthOutcome) (stopBefore : Nat → Bool)
    (calcGrid : Grid) (lengths : List Nat) :
    ∀ st : DriverState,
      (runSweep outcome stopBefore calcGrid lengths st).1.overallBestSolution
        = foldOffers st.overallBestSolution (sweepCallbacks outcome stopBefore lengths) := by
  induction lengths with
  | nil => intro st; rfl
  | cons l ls ih =>
      intro st
      unfold runSweep sweepCallbacks
      by_cases hs : stopBefore l
      · simp [hs, foldOffers_nil]
      · simp only [hs, if_false, Bool.false_eq_true]
        by_cases he : (outcome l).err = some SearchError.stoppedByUser
        · simp only [he, if_true, if_pos]
          exact foldl_progressCb_overall ..
        · simp only [he, if_false]
          rw [ih, foldl_progressCb_overall, foldOffers_append]

theorem scanl_head_eq (f : RiverPathSolution → RiverPathSolution → RiverPathSolution)
    (b : RiverPathSolution) (l : List RiverPathSolution) :
    (List.scanl f b l).head? = some b := by
  cases l <;> rfl

theorem chain'_scanl_offer (cands : List RiverPathSolution) :
    ∀ init : RiverPathSolution,
      List.Chain' (fun a b => b = a ∨ a.Profit < b.Profit)
        (List.scanl (fun cur cand => (Offer cur cand).1) init cands) := by
  induction cands with
  | nil => intro init; exact List.chain'_singleton init
  | cons c cs ih =>
      intro init
      rw [List.scanl]
      refine List.chain'_cons'.mpr ⟨?_, ih ((Offer init c).1)⟩
      intro y hy
      rw [scanl_head_eq] at hy
      cases hy
      unfold Offer
      split
      · next h => exact Or.inr h
      · exact Or.inl rfl

/-! ## Claim theorems -/

/-- Claim C7: the shared best-solution holder obeys Offer semantics —
one offered candidate replaces the current best exactly when its profit
is strictly greater (the mutex serializes the offers, modelled by the
fold); a serialized sequence of offers yields the running maximum profit,
and a sequence with no strictly better candidate leaves the holder
untouched. -/
theorem offer_replaces_iff_strictly_greater (current candidate init : RiverPathSolution)
    (cands : List RiverPathSolution) :
    ((Offer current candidate).2 = true ↔ current.Profit < candidate.Profit)
    ∧ ((Offer current candidate).2 = true → (Offer current candidate).1 = candidate)
    ∧ ((Offer current candidate).2 = false → (Offer current candidate).1 = current)
    ∧ (foldOffers init cands).Profit
        = (cands.map RiverPathSolution.Profit).foldl max init.Profit
    ∧ ((∀ c ∈ cands, c.Profit ≤ init.Profit) → foldOffers init cands = init) := by
  refine ⟨?_, ?_, ?_, foldOffers_profit cands init, foldOffers_unchanged cands init⟩
  · unfold Offer
    split
    · next h => simpa using h
    · next h => simpa using h
  · unfold Offer
    split
    · intro _; rfl
    · simp
  · unfold Offer
    split
    · simp
    · intro _; rfl

/-- Claim C8: the user-adjustable maximum river length starts at the
in-range default 35, and each adjustment operation — PageUp, PageDown,
the scrollbar clamp used by both track clicks and thumb drags, and the
reset to the default — maps an in-range value to an in-range value. -/
theorem riverLength_stays_in_range (v x : Int)
    (h1 : minRiverLength ≤ v) (h2 : v ≤ maxRiverLengthCap) :
    (minRiverLength ≤ defaultInitialRiverLength
        ∧ defaultInitialRiverLength ≤ maxRiverLengthCap)
    ∧ (minRiverLength ≤ pageUpRiverLength v ∧ pageUpRiverLength v ≤ maxRiverLengthCap)
    ∧ (minRiverLength ≤ pageDownRiverLength v ∧ pageDownRiverLength v ≤ maxRiverLengthCap)
    ∧ (minRiverLength ≤ clampRiverLength x ∧ clampRiverLength x ≤ maxRiverLengthCap) := by
  unfold pageUpRiverLength pageDownRiverLength clampRiverLength
  unfold minRiverLength maxRiverLengthCap defaultInitialRiverLength at *
  refine ⟨⟨by decide, by decide⟩, ?_, ?_, ?_⟩ <;> dsimp only <;> split_ifs <;> omega

/-- Witness for C8 at the concrete in-range value 35 and raw scrollbar
value 100. -/
theorem riverLength_stays_in_range_witness :
    minRiverLength ≤ clampRiverLength 100 ∧ clampRiverLength 100 ≤ maxRiverLengthCap :=
  (riverLength_stays_in_range 35 100 (by decide) (by decide)).2.2.2

/-- Claim C10: when the current sweep goroutine finalizes after a
user-forced stop, the Game's main display grid is left unchanged; on
natural completion it is overwritten with the final solution's grid. -/
theorem display_grid_only_on_natural_completion (roadLayoutGrid : Grid)
    (overallBest : RiverPathSolution) (gs : GameUIState) :
    (finalizeSweep true true roadLayoutGrid overallBest gs).grid = gs.grid
    ∧ (finalizeSweep true false roadLayoutGrid overallBest gs).grid
        = (finalizeSweep true false roadLayoutGrid overallBest gs).finalBestSolution.Grid := by
  unfold finalizeSweep
  simp

/-- Claim C3: within one sweep the overall best evolves exactly by
folding the callback stream through the Offer step, and along that
stream each successive overall-best value is either unchanged (so a
profit tie keeps the earlier, shorter-length solution) or has strictly
greater profit — in particular the reported profit is non-decreasing
across successive improvement-callback invocations. -/
theorem overall_best_monotone_within_sweep (outcome : Nat → LengthOutcome)
    (stopBefore : Nat → Bool) (calcGrid : Grid) (lengths : List Nat) (st : DriverState) :
    (runSweep outcome stopBefore calcGrid lengths st).1.overallBestSolution
      = foldOffers st.overallBestSolution (sweepCallbacks outcome stopBefore lengths)
    ∧ List.Chain' (fun a b => b = a ∨ a.Profit < b.Profit)
        (List.scanl (fun cur cand => (Offer cur cand).1) st.overallBestSolution
          (sweepCallbacks outcome stopBefore lengths)) :=
  ⟨runSweep_overall outcome stopBefore calcGrid lengths st,
   chain'_scanl_offer (sweepCallbacks outcome stopBefore lengths) st.overallBestSolution⟩

theorem runSweep_events_all (outcome : Nat → LengthOutcome) (stopBefore : Nat → Bool)
    (calcGrid : Grid) (lengths : List Nat) :
    ∀ st : DriverState, (∀ l, stopBefore l = false) →
      (∀ l ∈ lengths, (outcome l).err ≠ some SearchError.stoppedByUser) →
      (runSweep outcome stopBefore calcGrid lengths st).2
        = lengths.map fun l => (l, sentinelSolution calcGrid) := by
  induction lengths with
  | nil => intro st _ _; rfl
  | cons l ls ih =>
      intro st hstop herr
      unfold runSweep
      simp only [hstop l, Bool.false_eq_true, if_false]
      have hne : ¬ (outcome l).err = some SearchError.stoppedByUser :=
        herr l (List.mem_cons_self l ls)
      simp only [hne, if_false, List.map_cons]
      rw [ih _ hstop fun d hd => herr d (List.mem_cons_of_mem l hd)]

theorem map_fst_pair (x : RiverPathSolution) (ls : List Nat) :
    (ls.map fun l => (l, x)).map Prod.fst = ls := by
  induction ls with
  | nil => rfl
  | cons a as ih => simp only [List.map_cons]; rw [ih]

theorem chain'_lt_range' (n : Nat) : ∀ a : Nat, List.Chain' (· < ·) (List.range' a n) := by
  induction n with
  | zero => intro a; exact List.chain'_nil
  | succ n ih =>
      intro a
      show List.Chain' (· < ·) (a :: List.range' (a + 1) n)
      refine List.chain'_cons'.mpr ⟨?_, ih (a + 1)⟩
      intro b hb
      cases n with
      | zero => cases hb
      | succ m =>
          have : b = a + 1 := by
            have : (List.range' (a + 1) (m + 1)).head? = some (a + 1) := rfl
            rw [this] at hb
            cases hb
            rfl
          omega

/-- Claim C6: in a sweep that is never stopped, the engine is invoked
exactly once per length from 5 up to the target, in strictly increasing
order, and the per-length best holder is reset to the sentinel (profit
−1, nil path) at the start of each length test. -/
theorem lengths_tested_once_in_order (outcome : Nat → LengthOutcome)
    (stopBefore : Nat → Bool) (calcGrid : Grid) (target : Nat) (st : DriverState)
    (hstop : ∀ l, stopBefore l = false)
    (herr : ∀ l, (outcome l).err ≠ some SearchError.stoppedByUser) :
    ((runSweep outcome stopBefore calcGrid (sweepLengths target) st).2.map Prod.fst
        = sweepLengths target)
    ∧ List.Chain' (· < ·)
        ((runSweep outcome stopBefore calcGrid (sweepLengths target) st).2.map Prod.fst)
    ∧ ∀ ev ∈ (runSweep outcome stopBefore calcGrid (sweepLengths target) st).2,
        ev.2 = sentinelSolution calcGrid := by
  have hev := runSweep_events_all outcome stopBefore calcGrid (sweepLengths target) st hstop
    fun l _ => herr l
  rw [hev]
  refine ⟨?_, ?_, ?_⟩
  · exact map_fst_pair _ _
  · rw [map_fst_pair]
    exact chain'_lt_range' _ _
  · intro ev hev2
    rcases List.mem_map.mp hev2 with ⟨l, _, rfl⟩
    rfl

/-- Witness for C6: a clean sweep up to target 6 tests exactly the
lengths 5 and 6 in order, resetting to the sentinel each time. -/
theorem lengths_tested_once_in_order_witness :
    ((runSweep (fun _ => { callbacks := [], err := none }) (fun _ => false) NewGrid
          (sweepLengths 6) (launchDriverState NewGrid)).2.map Prod.fst
        = sweepLengths 6)
    ∧ List.Chain' (· < ·)
        ((runSweep (fun _ => { callbacks := [], err := none }) (fun _ => false) NewGrid
          (sweepLengths 6) (launchDriverState NewGrid)).2.map Prod.fst)
    ∧ ∀ ev ∈ (runSweep (fun _ => { callbacks := [], err := none }) (fun _ => false) NewGrid
          (sweepLengths 6) (launchDriverState NewGrid)).2,
        ev.2 = sentinelSolution NewGrid :=
  lengths_tested_once_in_order (fun _ => { callbacks := [], err := none }) (fun _ => false)
    NewGrid 6 (launchDriverState NewGrid) (fun _ => rfl) (fun _ h => Option.noConfusion h)

/-- Claim C9: a per-length error other than "search stopped by user" has
no effect on the sweep's control flow — erasing all such errors changes
nothing, a sweep without user stops tests every length, and when the
tested lengths fall short of the requested list a user stop occurred at
one of them. -/
theorem other_errors_only_logged (outcome : Nat → LengthOutcome)
    (stopBefore : Nat → Bool) (calcGrid : Grid) (lengths : List Nat) (st : DriverState)
    (hstop : ∀ l, stopBefore l = false) :
    (runSweep (eraseOtherErrors outcome) stopBefore calcGrid lengths st
        = runSweep outcome stopBefore calcGrid lengths st)
    ∧ ((∀ l ∈ lengths, (outcome l).err ≠ some SearchError.stoppedByUser) →
        (runSweep outcome stopBefore calcGrid lengths st).2.map Prod.fst = lengths)
    ∧ ((runSweep outcome stopBefore calcGrid lengths st).2.map Prod.fst ≠ lengths →
        ∃ l ∈ lengths, (outcome l).err = some SearchError.stoppedByUser) := by
  refine ⟨?_, ?_, ?_⟩
  · clear hstop
    induction lengths generalizing st with
    | nil => rfl
    | cons l ls ih =>
        unfold runSweep
        by_cases hs : stopBefore l
        · simp [hs]
        · simp only [hs, Bool.false_eq_true, if_false]
          have hcb : (eraseOtherErrors outcome l).callbacks = (outcome l).callbacks := rfl
          by_cases he : (outcome l).err = some SearchError.stoppedByUser
          · have he' : (eraseOtherErrors outcome l).err = some SearchError.stoppedByUser := by
              simp [eraseOtherErrors, he]
            simp [hcb, he, he']
          · have he' : ¬ (eraseOtherErrors outcome l).err = some SearchError.stoppedByUser := by
              simp [eraseOtherErrors, he]
            simp only [hcb, he, he', if_false]
            rw [ih]
  · intro herr
    rw [runSweep_events_all outcome stopBefore calcGrid lengths st hstop herr]
    exact map_fst_pair _ _
  · intro hne
    by_contra hex
    push_neg at hex
    exact hne (by
      rw [runSweep_events_all outcome stopBefore calcGrid lengths st hstop hex]
      exact map_fst_pair _ _)

/-- Witness for C9: with a non-stop error at length 6, the sweep up to
target 7 still tests all of 5, 6 and 7. -/
theorem other_errors_only_logged_witness :
    (runSweep exOutcome (fun _ => false) NewGrid (sweepLengths 7)
        (launchDriverState NewGrid)).2.map Prod.fst = sweepLengths 7 :=
  (other_errors_only_logged exOutcome (fun _ => false) NewGrid (sweepLengths 7)
      (launchDriverState NewGrid) (fun _ => rfl)).2.1 (by decide)

theorem mem_sweepCallbacks (outcome : Nat → LengthOutcome) (stopBefore : Nat → Bool)
    (lengths : List Nat) (c : RiverPathSolution) :
    c ∈ sweepCallbacks outcome stopBefore lengths → ∃ l, c ∈ (outcome l).callbacks := by
  induction lengths with
  | nil => intro h; cases h
  | cons l ls ih =>
      intro h
      unfold sweepCallbacks at h
      by_cases hs : stopBefore l
      · simp [hs] at h
      · simp only [hs, Bool.false_eq_true, if_false] at h
        by_cases he : (outcome l).err = some SearchError.stoppedByUser
        · rw [if_pos he] at h
          exact ⟨l, h⟩
        · rw [if_neg he] at h
          rcases List.mem_append.mp h with h | h
          · exact ⟨l, h⟩
          · exact ih h

/-- Claim C5: when no engine callback of the sweep ever carried negative
profit and the sweep still ends with negative best profit (nothing was
found), the finalized, externally visible solution is the sentinel —
profit −1 and an empty path over the road-layout grid — surfaced through
the normal result state. -/
theorem sentinel_surfaced_when_nothing_found (outcome : Nat → LengthOutcome)
    (stopBefore : Nat → Bool) (roadLayoutGrid : Grid) (lengths : List Nat)
    (userForcedStop : Bool) (gs : GameUIState)
    (hc : ∀ l, ∀ c ∈ (outcome l).callbacks, 0 ≤ c.Profit)
    (hneg : (runSweep outcome stopBefore roadLayoutGrid lengths
        (launchDriverState roadLayoutGrid)).1.overallBestSolution.Profit < 0) :
    (sweepFinal outcome stopBefore roadLayoutGrid lengths userForcedStop gs).finalBestSolution.Profit = -1
    ∧ (sweepFinal outcome stopBefore roadLayoutGrid lengths userForcedStop gs).finalBestSolution.Path = []
    ∧ (sweepFinal outcome stopBefore roadLayoutGrid lengths userForcedStop gs).finalBestSolution.Grid
        = roadLayoutGrid
    ∧ (sweepFinal outcome stopBefore roadLayoutGrid lengths userForcedStop gs).gameState
        = GState.showingResult := by
  have hov := runSweep_overall outcome stopBefore roadLayoutGrid lengths
    (launchDriverState roadLayoutGrid)
  have hsent : (runSweep outcome stopBefore roadLayoutGrid lengths
      (launchDriverState roadLayoutGrid)).1.overallBestSolution
      = sentinelSolution roadLayoutGrid := by
    rw [hov]
    rcases foldOffers_init_or_mem (sweepCallbacks outcome stopBefore lengths)
        (launchDriverState roadLayoutGrid).overallBestSolution with h | h
    · exact h
    · exfalso
      rcases mem_sweepCallbacks outcome stopBefore lengths _ h with ⟨l, hl⟩
      have h0 := hc l _ hl
      rw [hov] at hneg
      exact absurd (lt_of_le_of_lt h0 hneg) (by norm_num)
  unfold sweepFinal
  rw [hsent]
  unfold finalizeSweep sentinelSolution
  norm_num

/-- Witness for C5: a sweep up to target 6 with no callbacks at all ends
in the sentinel result over the road layout. -/
theorem sentinel_surfaced_when_nothing_found_witness :
    (sweepFinal (fun _ => { callbacks := [], err := none }) (fun _ => false) NewGrid
        (sweepLengths 6) false exUIState).finalBestSolution.Profit = -1
    ∧ (sweepFinal (fun _ => { callbacks := [], err := none }) (fun _ => false) NewGrid
        (sweepLengths 6) false exUIState).finalBestSolution.Path = [] :=
  have h := sentinel_surfaced_when_nothing_found (fun _ => { callbacks := [], err := none })
    (fun _ => false) NewGrid (sweepLengths 6) false exUIState
    (fun _ c hmem => absurd hmem (List.not_mem_nil c)) (by decide)
  ⟨h.1, h.2.1⟩

/-- Counterexample for C4: launch a sweep (generation 1), then reset —
the reset closes the stop channel and clears the shared best (profit back
to −1) but leaves the current generation at 1 — and then let a worker of
generation 1 that outlived the reset publish: its result passes the
generation guard and lands in the shared best (profit 1, its path), so a
result superseded by the reset was not discarded. -/
theorem generation_reset_counterexample :
    (calcRun (List.take 2 staleResetTrace)).absoluteBestOverallSolution.Profit = -1
    ∧ (calcRun (List.take 2 staleResetTrace)).stopChannelClosed = true
    ∧ (calcRun (List.take 2 staleResetTrace)).currentCalculationID = 1
    ∧ (calcRun staleResetTrace).absoluteBestOverallSolution.Profit = 1
    ∧ (calcRun staleResetTrace).absoluteBestOverallSolution.Path = [⟨1, 1⟩] := by
  refine ⟨?_, rfl, rfl, ?_, ?_⟩ <;> decide

/-- Claim C4 (amended): every sweep launch advances the generation id
strictly (given the invariant that the current id never exceeds the
launch counter, which holds initially and is preserved by every event);
a worker publication whose generation id differs from the current one is
discarded entirely; but a reset leaves both generation counters
unchanged, so workers that survive a reset still pass the generation
guard. -/
theorem generation_guard (s : CalcSystem) (wid : Nat) (wbest : RiverPathSolution)
    (road : Grid) (hinv : s.currentCalculationID ≤ s.calculationID) :
    s.currentCalculationID < (calcStep s (CalcEvent.launchSweep road)).currentCalculationID
    ∧ (∀ e : CalcEvent, (calcStep s e).currentCalculationID ≤ (calcStep s e).calculationID)
    ∧ initialCalcSystem.currentCalculationID ≤ initialCalcSystem.calculationID
    ∧ (wid ≠ s.currentCalculationID → calcStep s (CalcEvent.workerPublish wid wbest) = s)
    ∧ (calcStep s CalcEvent.resetFull).currentCalculationID = s.currentCalculationID
    ∧ (calcStep s CalcEvent.resetFull).calculationID = s.calculationID := by
  refine ⟨?_, ?_, by decide, ?_, rfl, rfl⟩
  · simp only [calcStep]
    omega
  · intro e
    cases e with
    | launchSweep road2 => exact Nat.le_refl _
    | resetFull => exact hinv
    | workerPublish wid2 wbest2 =>
        simp only [calcStep]
        split
        · split
          · exact hinv
          · exact hinv
        · exact hinv
  · intro hne
    simp only [calcStep]
    rw [if_neg hne]

/-- Witness for C4 (amended), at the initial system: a launch moves the
current generation from 0 to 1, and a publication tagged 5 ≠ 0 is
dropped. -/
theorem generation_guard_witness :
    initialCalcSystem.currentCalculationID
        < (calcStep initialCalcSystem (CalcEvent.launchSweep NewGrid)).currentCalculationID
    ∧ (5 ≠ initialCalcSystem.currentCalculationID →
        calcStep initialCalcSystem (CalcEvent.workerPublish 5 exSolutionA) = initialCalcSystem) :=
  ⟨(generation_guard initialCalcSystem 5 exSolutionA NewGrid (by decide)).1,
   (generation_guard initialCalcSystem 5 exSolutionA NewGrid (by decide)).2.2.2.1⟩

set_option maxRecDepth 4000 in
theorem allCoords_nodup : allCoords.Nodup := by decide

theorem mem_allCoords (c : Coordinate) (h : isValidCoordinate c = true) : c ∈ allCoords := by
  unfold isValidCoordinate at h
  simp only [Bool.and_eq_true, decide_eq_true_eq] at h
  obtain ⟨⟨⟨hx0, hxw⟩, hy0⟩, hyh⟩ := h
  unfold GridWidth at hxw
  unfold GridHeight at hyh
  unfold allCoords
  have hy : c.Y.toNat ∈ List.range 12 := List.mem_range.mpr (by omega)
  have hx : c.X.toNat ∈ List.range 21 := List.mem_range.mpr (by omega)
  have he : (⟨Int.ofNat c.X.toNat, Int.ofNat c.Y.toNat⟩ : Coordinate) = c := by
    have ex : Int.ofNat c.X.toNat = c.X := Int.toNat_of_nonneg hx0
    have ey : Int.ofNat c.Y.toNat = c.Y := Int.toNat_of_nonneg hy0
    cases c
    simp only [Coordinate.mk.injEq]
    exact ⟨ex, ey⟩
  exact List.mem_flatMap.mpr ⟨c.Y.toNat, hy, List.mem_map.mpr ⟨c.X.toNat, hx, he⟩⟩

theorem neighbors_valid (t c : Coordinate) (h : c ∈ neighbors t) : isValidCoordinate c = true :=
  (List.mem_filter.mp h).2

theorem riverNeighborCount_setTile_nonRiver (X : Grid) (c : Coordinate) (u : TileType)
    (hu : u ≠ TileType.River) (hc : X c ≠ TileType.River) :
    ∀ d, riverNeighborCount (setTile X c u) d = riverNeighborCount X d := by
  intro d
  unfold riverNeighborCount
  refine List.countP_congr ?_
  intro e _
  unfold setTile
  by_cases he : e = c
  · subst he
    rw [if_pos rfl]
    simp [hu, hc]
  · rw [if_neg he]

theorem sum_map_update (l : List Coordinate) :
    ∀ (f f' : Coordinate → ℚ) (c : Coordinate), l.Nodup → c ∈ l →
      (∀ d ∈ l, d ≠ c → f' d = f d) →
      (l.map f').sum = (l.map f).sum + (f' c - f c) := by
  induction l with
  | nil => intro f f' c _ hc; cases hc
  | cons a as ih =>
      intro f f' c hnd hc hagree
      have hnd' := List.nodup_cons.mp hnd
      rw [List.map_cons, List.map_cons, List.sum_cons, List.sum_cons]
      rcases List.mem_cons.mp hc with rfl | hc'
      · have : as.map f' = as.map f := by
          refine List.map_congr_left ?_
          intro d hd
          refine hagree d (List.mem_cons_of_mem _ hd) ?_
          intro hdc
          exact hnd'.1 (hdc ▸ hd)
        rw [this]
        ring
      · have hac : a ≠ c := fun h => hnd'.1 (h ▸ hc')
        rw [hagree a (List.mem_cons_self _ _) hac,
          ih f f' c hnd'.2 hc' fun d hd hdc => hagree d (List.mem_cons_of_mem _ hd) hdc]
        ring

theorem recompute_setForest (X : Grid) (c : Coordinate)
    (hval : isValidCoordinate c = true) (hemp : X c = TileType.Empty) :
    recomputeProfitFromGrid (setTile X c TileType.Forest)
      = recomputeProfitFromGrid X + forestContribution (riverNeighborCount X c) := by
  have hcnt := riverNeighborCount_setTile_nonRiver X c TileType.Forest
    (by decide) (by rw [hemp]; decide)
  have hagree : ∀ d ∈ allCoords, d ≠ c →
      (if tileAt (setTile X c TileType.Forest) d = TileType.Forest then
        forestContribution (riverNeighborCount (setTile X c TileType.Forest) d) else 0)
      = (if tileAt X d = TileType.Forest then
        forestContribution (riverNeighborCount X d) else 0) := by
    intro d _ hdc
    have ht : tileAt (setTile X c TileType.Forest) d = tileAt X d := by
      unfold tileAt setTile
      rw [if_neg hdc]
    rw [hcnt d, ht]
  have hupd := sum_map_update allCoords
    (fun d => if tileAt X d = TileType.Forest then
      forestContribution (riverNeighborCount X d) else 0)
    (fun d => if tileAt (setTile X c TileType.Forest) d = TileType.Forest then
      forestContribution (riverNeighborCount (setTile X c TileType.Forest) d) else 0)
    c allCoords_nodup (mem_allCoords c hval) hagree
  unfold recomputeProfitFromGrid
  rw [hupd]
  have h1 : tileAt (setTile X c TileType.Forest) c = TileType.Forest := by
    unfold tileAt setTile
    rw [if_pos rfl]
  have h2 : tileAt X c = TileType.Empty := hemp
  simp only [hcnt c, h1, h2]
  simp

theorem forestPlaceStep_invariant (X : Grid × ℚ) (c : Coordinate)
    (hval : isValidCoordinate c = true) (hinv : X.2 = recomputeProfitFromGrid X.1) :
    (forestPlaceStep X c).2 = recomputeProfitFromGrid (forestPlaceStep X c).1 := by
  unfold forestPlaceStep
  split
  · next hemp =>
      simp only
      rw [recompute_setForest X.1 c hval hemp, hinv]
  · exact hinv

theorem foldl_forestPlaceStep_invariant (cells : List Coordinate) :
    ∀ X : Grid × ℚ, (∀ c ∈ cells, isValidCoordinate c = true) →
      X.2 = recomputeProfitFromGrid X.1 →
      (cells.foldl forestPlaceStep X).2
        = recomputeProfitFromGrid (cells.foldl forestPlaceStep X).1 := by
  induction cells with
  | nil => intro X _ h; exact h
  | cons c cs ih =>
      intro X hval h
      rw [List.foldl_cons]
      exact ih _ (fun d hd => hval d (List.mem_cons_of_mem c hd))
        (forestPlaceStep_invariant X c (hval c (List.mem_cons_self c cs)) h)

theorem calculateProfitAndForests_invariant (path : List Coordinate) :
    ∀ X : Grid × ℚ, X.2 = recomputeProfitFromGrid X.1 →
      (path.foldl (fun acc t => (neighbors t).foldl forestPlaceStep acc) X).2
        = recomputeProfitFromGrid
            (path.foldl (fun acc t => (neighbors t).foldl forestPlaceStep acc) X).1 := by
  induction path with
  | nil => intro X h; exact h
  | cons t ts ih =>
      intro X h
      rw [List.foldl_cons]
      exact ih _ (foldl_forestPlaceStep_invariant (neighbors t) X
        (fun c hc => neighbors_valid t c hc) h)

/-- Claim C1: on a grid that holds no pre-existing Forest tile (as is the
case for every grid the evaluator sees: road layout plus marked river),
the profit returned by the ProfitEvaluator equals the recomputation from
the returned grid snapshot — the sum over all its Forest tiles of
`0.02 × 2 × k`, `k` that tile's count of orthogonally adjacent River
tiles. -/
theorem profit_roundtrip (g : Grid) (path : List Coordinate)
    (hnf : ∀ c, tileAt g c ≠ TileType.Forest) :
    recomputeProfitFromGrid (calculateProfitAndForests g path).1
      = (calculateProfitAndForests g path).2 := by
  have hbase : (0 : ℚ) = recomputeProfitFromGrid g := by
    unfold recomputeProfitFromGrid
    symm
    refine List.sum_eq_zero ?_
    intro x hx
    rcases List.mem_map.mp hx with ⟨c, _, rfl⟩
    rw [if_neg (hnf c)]
  exact (calculateProfitAndForests_invariant path (g, 0) hbase).symm

/-- Witness for C1: a single-tile river at (0,5) on an otherwise empty
grid; the evaluator's profit round-trips through its grid snapshot. -/
theorem profit_roundtrip_witness :
    recomputeProfitFromGrid
        (calculateProfitAndForests (setTile NewGrid ⟨0, 5⟩ TileType.River) [⟨0, 5⟩]).1
      = (calculateProfitAndForests (setTile NewGrid ⟨0, 5⟩ TileType.River) [⟨0, 5⟩]).2 :=
  profit_roundtrip (setTile NewGrid ⟨0, 5⟩ TileType.River) [⟨0, 5⟩]
    (by intro c; unfold tileAt setTile NewGrid; split <;> decide)

theorem mem_insertDesc (k : Coordinate → Nat × Nat × Nat) (a x : Coordinate) :
    ∀ l : List Coordinate, x ∈ insertDesc k a l ↔ x = a ∨ x ∈ l := by
  intro l
  induction l with
  | nil => simp [insertDesc]
  | cons b bs ih =>
      unfold insertDesc
      split
      · simp [List.mem_cons]
      · rw [List.mem_cons, ih, List.mem_cons]
        tauto

theorem mem_sortDescBy (k : Coordinate → Nat × Nat × Nat) (x : Coordinate) :
    ∀ l : List Coordinate, x ∈ sortDescBy k l ↔ x ∈ l := by
  intro l
  induction l with
  | nil => simp [sortDescBy]
  | cons a as ih =>
      unfold sortDescBy
      rw [mem_insertDesc, ih, List.mem_cons]

theorem mem_borderPrune (x : Coordinate) (l : List Coordinate)
    (h : x ∈ borderPrune l) : x ∈ l := by
  simp only [borderPrune] at h
  by_cases hi : (l.filter fun t => !(isBorder t)).isEmpty
  · rwa [if_pos hi] at h
  · rw [if_neg hi] at h
    exact (List.mem_filter.mp h).1

theorem neighbors_adjacent (cur t : Coordinate) (h : t ∈ neighbors cur) :
    isAdjacent t cur = true := by
  unfold neighbors at h
  have h' := (List.mem_filter.mp h).1
  unfold isAdjacent
  rw [decide_eq_true_eq]
  simp only [List.mem_cons, List.not_mem_nil, or_false] at h'
  rcases h' with rfl | rfl | rfl | rfl <;> simp only <;> omega

theorem candidateOk_no_uturn (dc : Bool) (g : Grid) (cur : Coordinate) (b t : Coordinate)
    (h : candidateOk dc g cur (some b) t = true) : t ≠ b := by
  unfold candidateOk at h
  simp only [Bool.and_eq_true, decide_eq_true_eq] at h
  exact h.1.2

theorem pathNoUturn_short (p : List Coordinate) (h : p.length ≤ 2) : pathNoUturn p := by
  intro i hi
  exact absurd hi (by omega)

theorem get_index_congr (l : List Coordinate) (i j : Nat) (h1 : i < l.length)
    (h2 : j < l.length) (he : i = j) : l.get ⟨i, h1⟩ = l.get ⟨j, h2⟩ := by
  subst he
  rfl

theorem pathNoUturn_cons (t : Coordinate) (p : List Coordinate)
    (hp : pathNoUturn p) (hne : ∀ b, p.get? 1 = some b → t ≠ b) :
    pathNoUturn (t :: p) := by
  intro i hi
  cases i with
  | zero =>
      have hlen : 1 < p.length := by
        simp only [List.length_cons] at hi
        omega
      have hb : p.get? 1 = some (p.get ⟨1, hlen⟩) := List.get?_eq_get hlen
      have hnb := hne _ hb
      simp only [List.get_eq_getElem, List.getElem_cons_succ, List.getElem_cons_zero]
      intro he
      exact hnb (by rw [← he]; simp [List.get_eq_getElem])
  | succ j =>
      have hlen : j + 2 < p.length := by
        simp only [List.length_cons] at hi
        omega
      simp only [List.get_eq_getElem, List.getElem_cons_succ]
      have := hp j hlen
      simpa [List.get_eq_getElem] using this

theorem pathNoUturn_reverse (p : List Coordinate) (h : pathNoUturn p) :
    pathNoUturn p.reverse := by
  intro i hi
  have hlen : i + 2 < p.length := by
    rwa [List.length_reverse] at hi
  have g1 : p.reverse.get ⟨i + 2, hi⟩
      = p.get ⟨p.length - 1 - (i + 2), by omega⟩ := by
    simp [List.get_eq_getElem, List.getElem_reverse]
  have g2 : p.reverse.get ⟨i, by omega⟩
      = p.get ⟨p.length - 1 - i, by omega⟩ := by
    simp [List.get_eq_getElem, List.getElem_reverse]
  rw [g1, g2]
  have base := h (p.length - 1 - (i + 2)) (by omega)
  intro he
  refine base ?_
  calc p.get ⟨p.length - 1 - (i + 2) + 2, by omega⟩
      = p.get ⟨p.length - 1 - i, by omega⟩ :=
        get_index_congr p _ _ (by omega) (by omega) (by omega)
    _ = p.get ⟨p.length - 1 - (i + 2), by omega⟩ := he.symm

theorem isAdjacent_symm (a b : Coordinate) : isAdjacent a b = isAdjacent b a := by
  unfold isAdjacent
  rw [decide_eq_decide]
  omega

theorem chain'_adj_reverse (p : List Coordinate)
    (h : List.Chain' (fun a b => isAdjacent a b = true) p) :
    List.Chain' (fun a b => isAdjacent a b = true) p.reverse := by
  rw [List.chain'_reverse]
  refine List.Chain'.imp ?_ h
  intro a b hab
  show isAdjacent b a = true
  rw [← isAdjacent_symm]
  exact hab

theorem leafEvaluate_ok (L : Nat) (g : Grid) (rev : List Coordinate)
    (acc : RiverPathSolution × List RiverPathSolution)
    (hlen : rev.length ≤ L)
    (hch : List.Chain' (fun a b => isAdjacent a b = true) rev)
    (hut : pathNoUturn rev)
    (hacc1 : solutionPathOk L acc.1) (hacc2 : ∀ s ∈ acc.2, solutionPathOk L s) :
    solutionPathOk L (leafEvaluate g rev acc).1
    ∧ ∀ s ∈ (leafEvaluate g rev acc).2, solutionPathOk L s := by
  have hnew : solutionPathOk L
      { Path := rev.reverse, Profit := (calculateProfitAndForests g rev.reverse).2,
        Grid := (calculateProfitAndForests g rev.reverse).1 } := by
    refine ⟨by simpa using hlen, chain'_adj_reverse rev hch, pathNoUturn_reverse rev hut⟩
  simp only [leafEvaluate]
  split
  · refine ⟨hnew, ?_⟩
    intro s hs
    rcases List.mem_append.mp hs with hs | hs
    · exact hacc2 s hs
    · rw [List.mem_singleton.mp hs]
      exact hnew
  · exact ⟨hacc1, hacc2⟩

theorem explore_ok (dc : Bool) (L : Nat) :
    ∀ (r : Nat) (g : Grid) (rev : List Coordinate)
      (acc : RiverPathSolution × List RiverPathSolution),
      rev.length + r ≤ L →
      List.Chain' (fun a b => isAdjacent a b = true) rev →
      pathNoUturn rev →
      solutionPathOk L acc.1 → (∀ s ∈ acc.2, solutionPathOk L s) →
      solutionPathOk L (exploreAndEvaluateRecursive dc r g rev acc).1
      ∧ ∀ s ∈ (exploreAndEvaluateRecursive dc r g rev acc).2, solutionPathOk L s := by
  intro r
  induction r with
  | zero =>
      intro g rev acc hlen hch hut hb hl
      cases rev with
      | nil => exact ⟨hb, hl⟩
      | cons cur rest =>
          exact leafEvaluate_ok L g (cur :: rest) acc (by omega) hch hut hb hl
  | succ r ih =>
      intro g rev acc hlen hch hut hb hl
      cases rev with
      | nil => exact ⟨hb, hl⟩
      | cons cur rest =>
          simp only [exploreAndEvaluateRecursive]
          by_cases hc : (sortedCandidates dc g cur rest.head?).isEmpty
          · simp only [hc, if_true]
            exact leafEvaluate_ok L g (cur :: rest) acc (by omega) hch hut hb hl
          · simp only [hc, if_false, Bool.false_eq_true]
            have hfold : ∀ ts : List Coordinate,
                (∀ t ∈ ts, t ∈ sortedCandidates dc g cur rest.head?) →
                ∀ a : RiverPathSolution × List RiverPathSolution,
                  solutionPathOk L a.1 → (∀ s ∈ a.2, solutionPathOk L s) →
                  solutionPathOk L ((ts.foldl (fun a t =>
                      exploreAndEvaluateRecursive dc r (setTile g t TileType.River)
                        (t :: cur :: rest) a) a)).1
                  ∧ ∀ s ∈ (ts.foldl (fun a t =>
                      exploreAndEvaluateRecursive dc r (setTile g t TileType.River)
                        (t :: cur :: rest) a) a).2, solutionPathOk L s := by
              intro ts
              induction ts with
              | nil => intro _ a ha1 ha2; exact ⟨ha1, ha2⟩
              | cons t ts iht =>
                  intro hsub a ha1 ha2
                  rw [List.foldl_cons]
                  have htmem := hsub t (List.mem_cons_self _ _)
                  have htC : t ∈ candidateNeighbors dc g cur rest.head? :=
                    mem_borderPrune t _ ((mem_sortDescBy _ t _).mp htmem)
                  have htN : t ∈ neighbors cur := (List.mem_filter.mp htC).1
                  have htOk : candidateOk dc g cur rest.head? t = true :=
                    (List.mem_filter.mp htC).2
                  have hadj : isAdjacent t cur = true := neighbors_adjacent cur t htN
                  have hch' : List.Chain' (fun a b => isAdjacent a b = true)
                      (t :: cur :: rest) := List.chain'_cons.mpr ⟨hadj, hch⟩
                  have hut' : pathNoUturn (t :: cur :: rest) := by
                    refine pathNoUturn_cons t (cur :: rest) hut ?_
                    intro b hb1
                    have hhead : rest.head? = some b := by
                      rw [List.get?_cons_succ] at hb1
                      rwa [← List.get?_zero]
                    rw [← hhead] at hb1
                    exact candidateOk_no_uturn dc g cur b t (by rwa [hhead] at htOk)
                  have step := ih (setTile g t TileType.River) (t :: cur :: rest) a
                    (by simp only [List.length_cons] at hlen ⊢; omega) hch' hut' ha1 ha2
                  exact iht (fun u hu => hsub u (List.mem_cons_of_mem _ hu)) _ step.1 step.2
            exact hfold _ (fun t ht => ht) acc hb hl

/-- Claim C2: every solution the search returns or delivers through the
improvement callback has consecutive path tiles at Manhattan distance 1,
a path of at most the requested maximum length, and no immediate U-turn
(path[i+2] ≠ path[i]). -/
theorem search_solutions_path_ok (g : Grid) (start : Coordinate) (L : Nat) (dc : Bool)
    (out : RiverPathSolution × List RiverPathSolution) (s : RiverPathSolution)
    (hL : 1 ≤ L)
    (hok : FindOptimalRiverAndForests g start L dc = Except.ok out)
    (hs : s ∈ out.2 ∨ s = out.1) :
    s.Path.length ≤ L
    ∧ List.Chain' (fun a b => isAdjacent a b = true) s.Path
    ∧ pathNoUturn s.Path := by
  unfold FindOptimalRiverAndForests at hok
  split at hok
  · have hout : exploreAndEvaluateRecursive dc (L - 1) (setTile g start TileType.River)
        [start] (sentinelSolution g, []) = out := by
      injection hok
    have hsent : solutionPathOk L (sentinelSolution g,
        ([] : List RiverPathSolution)).1 := by
      refine ⟨by simp [sentinelSolution], ?_, ?_⟩
      · exact List.chain'_nil
      · exact pathNoUturn_short _ (by simp [sentinelSolution])
    have hall := explore_ok dc L (L - 1) (setTile g start TileType.River) [start]
      (sentinelSolution g, []) (by simp; omega) (List.chain'_singleton start)
      (pathNoUturn_short _ (by simp)) hsent
      (fun s hs => absurd hs (List.not_mem_nil s))
    rw [hout] at hall
    rcases hs with hs | rfl
    · exact hall.2 s hs
    · exact hall.1
  · exact absurd hok (by simp)

/-- Witness for C2: the engine run of `exSearchOut` (empty grid, start
(0,5), maximum length 1) returns a best solution satisfying the path
contract. -/
theorem search_solutions_path_ok_witness :
    exSearchOut.1.Path.length ≤ 1
    ∧ List.Chain' (fun a b => isAdjacent a b = true) exSearchOut.1.Path
    ∧ pathNoUturn exSearchOut.1.Path :=
  search_solutions_path_ok NewGrid ⟨0, 5⟩ 1 false exSearchOut exSearchOut.1
    (Nat.le_refl 1) rfl (Or.inr rfl)

end Riverplan
